import Mathlib

/-!
Verification of the car-price prediction web app (`src/app.py`).

The app is a single Flask handler `predict_placement` on route `/predict`:
it reads six named form fields, converts each with Python's `float`,
assembles them in fixed order into a vector, calls `model.predict` exactly
once on that vector, and returns `str(result[0])` as the response body.
The model object is loaded once at module import (`model = pickle.load(...)`)
before `app.run()` starts serving.

We embed the handler shallowly: Python floats obtained from form strings are
modelled as exact decimals plus the non-finite values (`float` accepts
"inf", "-inf", "nan", and scientific notation), `float`'s string grammar is
implemented over `List Char`, Flask's `request.form` is an association list
of field names to string values, and the predictor is an arbitrary pure
function from the 6-vector to a scalar.
-/

deriving instance DecidableEq for Except

namespace CarPrice

/-- A Python floating-point value as the handler observes it: a finite
decimal `m / 10 ^ e`, positive or negative infinity, or NaN.  The handler
does no arithmetic on these values, so exact decimals model the parsed
values faithfully. -/
inductive PyFloat where
  | finite (m : Int) (e : Nat)
  | inf
  | neginf
  | nan
deriving Repr, DecidableEq

/-- ASCII decimal digit test (the digits accepted by Python's `float`). -/
def isDigitChar (c : Char) : Bool :=
  c == '0' || c == '1' || c == '2' || c == '3' || c == '4' ||
  c == '5' || c == '6' || c == '7' || c == '8' || c == '9'

/-- Whitespace characters stripped by Python's `float` before parsing. -/
def isPySpace (c : Char) : Bool :=
  c == ' ' || c == '\t' || c == '\n' || c == '\r' || c == '\x0b' || c == '\x0c'

/-- Strip leading and trailing whitespace, as `float` does. -/
def stripWS (cs : List Char) : List Char :=
  ((cs.dropWhile isPySpace).reverse.dropWhile isPySpace).reverse

/-- Split an optional leading sign; returns (isNegative, rest). -/
def splitSign : List Char → Bool × List Char
  | '+' :: t => (false, t)
  | '-' :: t => (true, t)
  | t => (false, t)

/-- Case-insensitive comparison of `cs` against a fixed lowercase word. -/
def lowerEq : List Char → List Char → Bool
  | [], [] => true
  | c :: cs, t :: ts => c.toLower == t && lowerEq cs ts
  | _, _ => false

/-- The numeric value of a list of ASCII digits. -/
def digitsToNat (ds : List Char) : Nat :=
  ds.foldl (fun acc c => acc * 10 + (c.toNat - 48)) 0

/-- Build the finite value `±m0 * 10 ^ k / 10 ^ e0` in normal form. -/
def mkFinite (neg : Bool) (m0 : Nat) (e0 : Nat) (k : Int) : PyFloat :=
  let sm : Int := if neg then -(m0 : Int) else (m0 : Int)
  if (e0 : Int) ≤ k then .finite (sm * 10 ^ (k - (e0 : Int)).toNat) 0
  else .finite sm ((e0 : Int) - k).toNat

/-- Parse `[sign] digits` after `e`/`E` and finish the number. -/
def parseExponent (neg : Bool) (m0 : Nat) (e0 : Nat) (cs : List Char) :
    Option PyFloat :=
  let (eneg, t) := splitSign cs
  let ed := t.takeWhile isDigitChar
  if ed.isEmpty || !(t.dropWhile isDigitChar).isEmpty then none
  else
    let k : Int := if eneg then -(digitsToNat ed : Int) else (digitsToNat ed : Int)
    some (mkFinite neg m0 e0 k)

/-- Parse the decimal part of `float`'s grammar:
`digits [. digits] [(e|E) [sign] digits]`, at least one digit required. -/
def parseDecimal (neg : Bool) (cs : List Char) : Option PyFloat :=
  let ip := cs.takeWhile isDigitChar
  let rest1 := cs.dropWhile isDigitChar
  match rest1 with
  | '.' :: t =>
    let fp := t.takeWhile isDigitChar
    let rest2 := t.dropWhile isDigitChar
    if ip.isEmpty && fp.isEmpty then none
    else match rest2 with
      | [] => some (mkFinite neg (digitsToNat (ip ++ fp)) fp.length 0)
      | 'e' :: u => parseExponent neg (digitsToNat (ip ++ fp)) fp.length u
      | 'E' :: u => parseExponent neg (digitsToNat (ip ++ fp)) fp.length u
      | _ => none
  | [] =>
    if ip.isEmpty then none
    else some (mkFinite neg (digitsToNat ip) 0 0)
  | 'e' :: u =>
    if ip.isEmpty then none else parseExponent neg (digitsToNat ip) 0 u
  | 'E' :: u =>
    if ip.isEmpty then none else parseExponent neg (digitsToNat ip) 0 u
  | _ => none

/-- Python's `float` on a character list: strip whitespace, optional sign,
then either `inf`/`infinity`/`nan` (case-insensitive) or a decimal literal. -/
def pyFloatCore (cs0 : List Char) : Option PyFloat :=
  let cs := stripWS cs0
  let (neg, rest) := splitSign cs
  if lowerEq rest "inf".toList || lowerEq rest "infinity".toList then
    some (if neg then .neginf else .inf)
  else if lowerEq rest "nan".toList then
    some .nan
  else
    parseDecimal neg rest

/-- Python's `float(s)` on a string; `none` models the `ValueError` raised
on non-numeric input. -/
def pyFloat (s : String) : Option PyFloat :=
  pyFloatCore s.toList

/-- Digits of `n`, most significant first, accumulated onto `acc`;
`fuel ≥ 1` suffices since each step divides `n` by 10. -/
def natDigitsAux : Nat → Nat → List Char → List Char
  | 0, _, acc => acc
  | fuel + 1, n, acc =>
    let d := Char.ofNat (48 + n % 10)
    if n < 10 then d :: acc else natDigitsAux fuel (n / 10) (d :: acc)

/-- Decimal digit string of a natural number. -/
def natDigits (n : Nat) : List Char :=
  natDigitsAux (n + 1) n []

/-- The character list printed by Python's `str` for the finite float
`m / 10 ^ e`: sign, integer digits, a decimal point, fraction digits
(`str(170.0) = "170.0"`, `str(-12.5) = "-12.5"`). -/
def renderFinite (m : Int) (e : Nat) : List Char :=
  let ds := natDigits m.natAbs
  let body :=
    if e = 0 then ds ++ ['.', '0']
    else
      let padded := if ds.length ≤ e then List.replicate (e + 1 - ds.length) '0' ++ ds else ds
      padded.take (padded.length - e) ++ '.' :: padded.drop (padded.length - e)
  if m < 0 then '-' :: body else body

/-- `str(x)` for a Python float, as returned by the handler
(`str(float('inf')) = "inf"`, `str(float('nan')) = "nan"`). -/
def pyFloatToString : PyFloat → String
  | .finite m e => String.mk (renderFinite m e)
  | .inf => "inf"
  | .neginf => "-inf"
  | .nan => "nan"

/-! ## The form and the handler (`predict_placement`, `src/app.py` lines 14-28) -/

/-- A form submission: the client-supplied named string fields, in order.
Flask's `request.form` can hold repeated and extra keys; `get` returns the
first value for a key. -/
def Form := List (String × String)

/-- Flask's `request.form.get(name)`: first value for `name`, else `None`. -/
def formGet (form : Form) (name : String) : Option String :=
  (form.find? (fun kv => kv.fst == name)).map (fun kv => kv.snd)

/-- The fault raised by `float(request.form.get(name))` in the handler:
`missing` models the `TypeError` when the field is absent (`get` returned
`None`), `nonNumeric` the `ValueError` when the string does not parse. -/
inductive ParseError where
  | missing (field : String)
  | nonNumeric (field : String)
deriving Repr, DecidableEq

/-- One line `x = float(request.form.get(name))` of the handler. -/
def getFloat (form : Form) (name : String) : Except ParseError PyFloat :=
  match formGet form name with
  | none => .error (.missing name)
  | some s =>
    match pyFloat s with
    | none => .error (.nonNumeric name)
    | some v => .ok v

/-- The six field names, in the order the handler reads them
(`src/app.py` lines 15-20). -/
def fieldNames : List String :=
  ["carlength", "carwidth", "carheight", "enginesize", "horsepower", "peakrpm"]

/-- Lines 15-20 and 24 of the handler: parse the six fields in source
order into the fixed-order vector
`[carlength, carwidth, carheight, enginesize, horsepower, peakrpm]`;
the first failing `float` call aborts the handler. -/
def parseForm (form : Form) : Except ParseError (List PyFloat) :=
  match getFloat form "carlength" with
  | .error e => .error e
  | .ok carlength =>
  match getFloat form "carwidth" with
  | .error e => .error e
  | .ok carwidth =>
  match getFloat form "carheight" with
  | .error e => .error e
  | .ok carheight =>
  match getFloat form "enginesize" with
  | .error e => .error e
  | .ok enginesize =>
  match getFloat form "horsepower" with
  | .error e => .error e
  | .ok horsepower =>
  match getFloat form "peakrpm" with
  | .error e => .error e
  | .ok peakrpm =>
  .ok [carlength, carwidth, carheight, enginesize, horsepower, peakrpm]

/-- The predictor contract: `model.predict` on the 6-vector, yielding the
scalar `result[0]`.  The trained artifact is opaque, so it is a parameter. -/
def Predictor := List PyFloat → PyFloat

/-- The handler `predict_placement`: parse the six fields, call
`model.predict` on the vector, return `str(result[0])` as the body;
an unparseable field propagates as the error. -/
def predict_placement (model : Predictor) (form : Form) :
    Except ParseError String :=
  match parseForm form with
  | .error e => .error e
  | .ok vec => .ok (pyFloatToString (model vec))

/-- The vectors passed to `model.predict` while handling `form`, in call
order: exactly one call on success, none when parsing fails (the lone
`model.predict(...)` on line 24 runs only after all six `float` calls). -/
def predictCalls (_model : Predictor) (form : Form) : List (List PyFloat) :=
  match parseForm form with
  | .error _ => []
  | .ok vec => [vec]

/-! ## The process: routes, state and lifecycle (`src/app.py` lines 6-31) -/

/-- An incoming HTTP request: `GET /` or `POST /predict` with a form. -/
inductive Request where
  | root
  | predictRoute (form : Form)

/-- An outgoing response: the rendered index page, a plain-text prediction
body, or the generic server error produced by an unhandled fault. -/
inductive Response where
  | page (template : String)
  | ok (body : String)
  | serverError (e : ParseError)
deriving Repr, DecidableEq

/-- Process-wide state: the `model` global loaded on line 6.  Nothing in
the module ever assigns to it after load. -/
structure AppState where
  model : Predictor

/-- Dispatch one request: `/` renders `index.html` (line 11), `/predict`
runs `predict_placement`; the state is returned alongside the response. -/
def handleRequest (st : AppState) (req : Request) : Response × AppState :=
  match req with
  | .root => (.page "index.html", st)
  | .predictRoute form =>
    match predict_placement st.model form with
    | .ok body => (.ok body, st)
    | .error e => (.serverError e, st)

/-- A process lifecycle event: the one-time `pickle.load` on line 6, or
the serving of one request by `app.run()` (line 31). -/
inductive ProcEvent where
  | load
  | serve (req : Request)

/-- Whether an event is the model load. -/
def isLoad : ProcEvent → Bool
  | .load => true
  | .serve _ => false

/-- The event trace of an execution of `app.py` that serves the requests
`reqs`: module import runs `model = pickle.load(...)` (line 6) before
`app.run()` (line 31) serves any request, so every trace is the load
followed by the serves. -/
def processTrace (reqs : List Request) : List ProcEvent :=
  .load :: reqs.map .serve

/-- Run the process over a request list, threading the state from the
initial load and collecting the responses. -/
def runProcess (st : AppState) : List Request → List Response × AppState
  | [] => ([], st)
  | req :: reqs =>
    let (resp, st1) := handleRequest st req
    let (resps, st2) := runProcess st1 reqs
    (resp :: resps, st2)

/-! ## Character-level lemmas -/

theorem isDigitChar_cases (c : Char) (h : isDigitChar c = true) :
    c = '0' ∨ c = '1' ∨ c = '2' ∨ c = '3' ∨ c = '4' ∨
    c = '5' ∨ c = '6' ∨ c = '7' ∨ c = '8' ∨ c = '9' := by
  simp [isDigitChar] at h
  tauto

theorem digit_not_space (c : Char) (h : isDigitChar c = true) :
    isPySpace c = false := by
  rcases isDigitChar_cases c h with h|h|h|h|h|h|h|h|h|h <;> subst h <;> decide

theorem digit_splitSign (c : Char) (t : List Char) (h : isDigitChar c = true) :
    splitSign (c :: t) = (false, c :: t) := by
  rcases isDigitChar_cases c h with h|h|h|h|h|h|h|h|h|h <;> subst h <;> rfl

theorem digit_toLower_eq (c : Char) (h : isDigitChar c = true) :
    c.toLower = c := by
  rcases isDigitChar_cases c h with h|h|h|h|h|h|h|h|h|h <;> subst h <;> decide

theorem digit_ne_letter (c : Char) (h : isDigitChar c = true) :
    (c.toLower == 'i') = false ∧ (c.toLower == 'n') = false := by
  rcases isDigitChar_cases c h with h|h|h|h|h|h|h|h|h|h <;> subst h <;> decide

/-! ## Digit-string lemmas -/

theorem natDigitsAux_shape (fuel : Nat) : ∀ (n : Nat) (acc : List Char),
    ∃ ds, natDigitsAux fuel n acc = ds ++ acc ∧ (fuel ≠ 0 → ds ≠ []) ∧
      ∀ c ∈ ds, isDigitChar c = true := by
  induction fuel with
  | zero => intro n acc; exact ⟨[], rfl, by simp, by simp⟩
  | succ fuel ih =>
    intro n acc
    have hdig : isDigitChar (Char.ofNat (48 + n % 10)) = true := by
      have hlt : n % 10 < 10 := Nat.mod_lt _ (by decide)
      interval_cases h : n % 10 <;> decide
    by_cases hn : n < 10
    · exact ⟨[Char.ofNat (48 + n % 10)], by simp [natDigitsAux, hn], by simp,
        by simpa using hdig⟩
    · obtain ⟨ds, hds, -, hdigs⟩ := ih (n / 10) (Char.ofNat (48 + n % 10) :: acc)
      refine ⟨ds ++ [Char.ofNat (48 + n % 10)], ?_, by simp, ?_⟩
      · simp [natDigitsAux, hn, hds]
      · intro c hc
        rcases List.mem_append.mp hc with hc | hc
        · exact hdigs c hc
        · simpa using (List.mem_singleton.mp hc ▸ hdig)

theorem natDigits_shape (n : Nat) :
    natDigits n ≠ [] ∧ ∀ c ∈ natDigits n, isDigitChar c = true := by
  obtain ⟨ds, hds, hne, hdigs⟩ := natDigitsAux_shape (n + 1) n []
  unfold natDigits
  rw [hds]
  simpa using ⟨hne (by simp), hdigs⟩

/-! ## takeWhile / dropWhile lemmas -/

theorem dropWhile_of_none (p : Char → Bool) (l : List Char)
    (h : ∀ c ∈ l, p c = false) : l.dropWhile p = l := by
  cases l with
  | nil => rfl
  | cons a t => simp [List.dropWhile_cons, h a (by simp)]

theorem stripWS_of_no_space (l : List Char)
    (h : ∀ c ∈ l, isPySpace c = false) : stripWS l = l := by
  unfold stripWS
  rw [dropWhile_of_none _ _ h, dropWhile_of_none, List.reverse_reverse]
  intro c hc
  exact h c (by simpa using hc)

theorem takeWhile_append_dot (ip fp : List Char)
    (hip : ∀ c ∈ ip, isDigitChar c = true) :
    (ip ++ '.' :: fp).takeWhile isDigitChar = ip ∧
    (ip ++ '.' :: fp).dropWhile isDigitChar = '.' :: fp := by
  induction ip with
  | nil =>
    have hdot : isDigitChar '.' = false := by decide
    constructor <;> simp [List.takeWhile_cons, List.dropWhile_cons, hdot]
  | cons a t ih =>
    have ha : isDigitChar a = true := hip a (by simp)
    have iht := ih (fun c hc => hip c (by simp [hc]))
    simp [List.takeWhile_cons, List.dropWhile_cons, ha, iht.1, iht.2]

theorem takeWhile_all_digits (l : List Char)
    (h : ∀ c ∈ l, isDigitChar c = true) :
    l.takeWhile isDigitChar = l ∧ l.dropWhile isDigitChar = [] := by
  induction l with
  | nil => exact ⟨rfl, rfl⟩
  | cons a t ih =>
    have ha : isDigitChar a = true := h a (by simp)
    have iht := ih (fun c hc => h c (by simp [hc]))
    simp [List.takeWhile_cons, List.dropWhile_cons, ha, iht.1, iht.2]

/-! ## The rendered float reparses -/

theorem renderFinite_shape (m : Int) (e : Nat) :
    ∃ ip fp,
      (renderFinite m e = if m < 0 then '-' :: (ip ++ '.' :: fp) else ip ++ '.' :: fp) ∧
      ip ≠ [] ∧ fp ≠ [] ∧ (∀ c ∈ ip, isDigitChar c = true) ∧
      ∀ c ∈ fp, isDigitChar c = true := by
  obtain ⟨hne, hdigs⟩ := natDigits_shape m.natAbs
  have hlen1 : 1 ≤ (natDigits m.natAbs).length := by
    cases h : natDigits m.natAbs with
    | nil => exact absurd h hne
    | cons a t => simp
  unfold renderFinite
  by_cases he : e = 0
  · subst he
    refine ⟨natDigits m.natAbs, ['0'], by simp, hne, by simp, hdigs, ?_⟩
    intro c hc
    rw [List.mem_singleton.mp hc]
    decide
  · simp only [if_neg he]
    set ds := natDigits m.natAbs with hds
    set padded :=
      if ds.length ≤ e then List.replicate (e + 1 - ds.length) '0' ++ ds else ds
      with hpadded
    have hpdigs : ∀ c ∈ padded, isDigitChar c = true := by
      rw [hpadded]
      split
      · intro c hc
        rcases List.mem_append.mp hc with hc | hc
        · rw [List.eq_of_mem_replicate hc]; decide
        · exact hdigs c hc
      · exact hdigs
    have hplen : e + 1 ≤ padded.length := by
      rw [hpadded]
      split
      · rw [List.length_append, List.length_replicate]
        omega
      · omega
    refine ⟨padded.take (padded.length - e), padded.drop (padded.length - e),
        rfl, ?_, ?_, ?_, ?_⟩
    · rw [← List.length_pos, List.length_take]
      omega
    · rw [← List.length_pos, List.length_drop]
      omega
    · exact fun c hc => hpdigs c (List.take_subset _ _ hc)
    · exact fun c hc => hpdigs c (List.drop_subset _ _ hc)

theorem parseDecimal_dot (neg : Bool) (ip fp : List Char)
    (hipne : ip ≠ []) (hip : ∀ c ∈ ip, isDigitChar c = true)
    (hfp : ∀ c ∈ fp, isDigitChar c = true) :
    (parseDecimal neg (ip ++ '.' :: fp)).isSome = true := by
  obtain ⟨h1, h2⟩ := takeWhile_append_dot ip fp hip
  obtain ⟨h3, h4⟩ := takeWhile_all_digits fp hfp
  obtain ⟨a, t, rfl⟩ := List.exists_cons_of_ne_nil hipne
  unfold parseDecimal
  simp only [h1, h2, h3, h4]
  simp

theorem pyFloat_render_isSome (v : PyFloat) :
    (pyFloat (pyFloatToString v)).isSome = true := by
  cases v with
  | inf => decide
  | neginf => decide
  | nan => decide
  | finite m e =>
    show (pyFloatCore (renderFinite m e)).isSome = true
    obtain ⟨ip, fp, heq, hipne, hfpne, hip, hfp⟩ := renderFinite_shape m e
    rw [heq]
    obtain ⟨a, t, rfl⟩ := List.exists_cons_of_ne_nil hipne
    have ha : isDigitChar a = true := hip a (by simp)
    have hnosp : ∀ c ∈ (a :: t) ++ '.' :: fp, isPySpace c = false := by
      intro c hc
      rcases List.mem_append.mp hc with hc | hc
      · exact digit_not_space c (hip c hc)
      · rcases List.mem_cons.mp hc with hc | hc
        · rw [hc]; decide
        · exact digit_not_space c (hfp c hc)
    have hrest : (a :: t) ++ '.' :: fp = a :: (t ++ '.' :: fp) := by simp
    have hletter := digit_ne_letter a ha
    have hlowInf : lowerEq (a :: (t ++ '.' :: fp)) "inf".toList = false := by
      show lowerEq (a :: (t ++ '.' :: fp)) ('i' :: 'n' :: 'f' :: []) = false
      simp [lowerEq, hletter.1]
    have hlowInfinity :
        lowerEq (a :: (t ++ '.' :: fp)) "infinity".toList = false := by
      show lowerEq (a :: (t ++ '.' :: fp))
        ('i' :: 'n' :: 'f' :: 'i' :: 'n' :: 'i' :: 't' :: 'y' :: []) = false
      simp [lowerEq, hletter.1]
    have hlowNan : lowerEq (a :: (t ++ '.' :: fp)) "nan".toList = false := by
      show lowerEq (a :: (t ++ '.' :: fp)) ('n' :: 'a' :: 'n' :: []) = false
      simp [lowerEq, hletter.2]
    have hdec := parseDecimal_dot false (a :: t) fp (by simp) hip hfp
    have hdecT := parseDecimal_dot true (a :: t) fp (by simp) hip hfp
    by_cases hm : m < 0
    · simp only [if_pos hm]
      unfold pyFloatCore
      have hnosp2 : ∀ c ∈ '-' :: ((a :: t) ++ '.' :: fp), isPySpace c = false := by
        intro c hc
        rcases List.mem_cons.mp hc with hc | hc
        · rw [hc]; decide
        · exact hnosp c hc
      rw [stripWS_of_no_space _ hnosp2, hrest]
      have hsign : splitSign ('-' :: a :: (t ++ '.' :: fp)) =
          (true, a :: (t ++ '.' :: fp)) := rfl
      simp only [hsign, hlowInf, hlowInfinity, hlowNan]
      simpa [hrest] using hdecT
    · simp only [if_neg hm]
      unfold pyFloatCore
      rw [stripWS_of_no_space _ hnosp]
      rw [hrest]
      have hsign : splitSign (a :: (t ++ '.' :: fp)) =
          (false, a :: (t ++ '.' :: fp)) := digit_splitSign a _ ha
      simp only [hsign, hlowInf, hlowInfinity, hlowNan]
      simpa [hrest] using hdec

/-! ## A big-step evaluation relation for the handler

`HandlerEval model form o` holds when one run of `predict_placement` on
`form` can end with outcome `o`: either some `float(request.form.get(...))`
line raises (after all earlier lines succeeded), or all six succeed and
the response is the rendered prediction. -/

/-- One possible run of the handler body, statement by statement. -/
inductive HandlerEval (model : Predictor) (form : Form) :
    Except ParseError String → Prop where
  | errCarlength (e : ParseError)
      (h1 : getFloat form "carlength" = .error e) :
      HandlerEval model form (.error e)
  | errCarwidth (v1 : PyFloat) (e : ParseError)
      (h1 : getFloat form "carlength" = .ok v1)
      (h2 : getFloat form "carwidth" = .error e) :
      HandlerEval model form (.error e)
  | errCarheight (v1 v2 : PyFloat) (e : ParseError)
      (h1 : getFloat form "carlength" = .ok v1)
      (h2 : getFloat form "carwidth" = .ok v2)
      (h3 : getFloat form "carheight" = .error e) :
      HandlerEval model form (.error e)
  | errEnginesize (v1 v2 v3 : PyFloat) (e : ParseError)
      (h1 : getFloat form "carlength" = .ok v1)
      (h2 : getFloat form "carwidth" = .ok v2)
      (h3 : getFloat form "carheight" = .ok v3)
      (h4 : getFloat form "enginesize" = .error e) :
      HandlerEval model form (.error e)
  | errHorsepower (v1 v2 v3 v4 : PyFloat) (e : ParseError)
      (h1 : getFloat form "carlength" = .ok v1)
      (h2 : getFloat form "carwidth" = .ok v2)
      (h3 : getFloat form "carheight" = .ok v3)
      (h4 : getFloat form "enginesize" = .ok v4)
      (h5 : getFloat form "horsepower" = .error e) :
      HandlerEval model form (.error e)
  | errPeakrpm (v1 v2 v3 v4 v5 : PyFloat) (e : ParseError)
      (h1 : getFloat form "carlength" = .ok v1)
      (h2 : getFloat form "carwidth" = .ok v2)
      (h3 : getFloat form "carheight" = .ok v3)
      (h4 : getFloat form "enginesize" = .ok v4)
      (h5 : getFloat form "horsepower" = .ok v5)
      (h6 : getFloat form "peakrpm" = .error e) :
      HandlerEval model form (.error e)
  | success (v1 v2 v3 v4 v5 v6 : PyFloat)
      (h1 : getFloat form "carlength" = .ok v1)
      (h2 : getFloat form "carwidth" = .ok v2)
      (h3 : getFloat form "carheight" = .ok v3)
      (h4 : getFloat form "enginesize" = .ok v4)
      (h5 : getFloat form "horsepower" = .ok v5)
      (h6 : getFloat form "peakrpm" = .ok v6) :
      HandlerEval model form
        (.ok (pyFloatToString (model [v1, v2, v3, v4, v5, v6])))

/-- The handler function realises the evaluation relation. -/
theorem handlerEval_total (model : Predictor) (form : Form) :
    HandlerEval model form (predict_placement model form) := by
  unfold predict_placement parseForm
  cases h1 : getFloat form "carlength" with
  | error e => exact .errCarlength e h1
  | ok v1 =>
  cases h2 : getFloat form "carwidth" with
  | error e => exact .errCarwidth v1 e h1 h2
  | ok v2 =>
  cases h3 : getFloat form "carheight" with
  | error e => exact .errCarheight v1 v2 e h1 h2 h3
  | ok v3 =>
  cases h4 : getFloat form "enginesize" with
  | error e => exact .errEnginesize v1 v2 v3 e h1 h2 h3 h4
  | ok v4 =>
  cases h5 : getFloat form "horsepower" with
  | error e => exact .errHorsepower v1 v2 v3 v4 e h1 h2 h3 h4 h5
  | ok v5 =>
  cases h6 : getFloat form "peakrpm" with
  | error e => exact .errPeakrpm v1 v2 v3 v4 v5 e h1 h2 h3 h4 h5 h6
  | ok v6 => exact .success v1 v2 v3 v4 v5 v6 h1 h2 h3 h4 h5 h6

/-- `getFloat` fails exactly on a missing field or an unparseable value. -/
theorem getFloat_error_iff (form : Form) (name : String) :
    (∃ e, getFloat form name = .error e) ↔
    (formGet form name = none ∨
      ∃ s, formGet form name = some s ∧ pyFloat s = none) := by
  unfold getFloat
  cases h : formGet form name with
  | none => simp
  | some s =>
    cases hp : pyFloat s with
    | none => simp [hp]
    | some v => simp [hp]

/-! ## Concrete fixtures used by the witnesses -/

/-- The spec's scenario form: carlength 170, carwidth 65, carheight 55,
enginesize 130, horsepower 110, peakrpm 5500. -/
def scenarioForm : Form :=
  [("carlength", "170"), ("carwidth", "65"), ("carheight", "55"),
   ("enginesize", "130"), ("horsepower", "110"), ("peakrpm", "5500")]

/-- A sample predictor instantiating the opaque model in concrete checks. -/
def constPredictor : Predictor := fun _ => .finite 13495 0

/-- The scenario form with `horsepower` omitted. -/
def missingHorsepowerForm : Form :=
  [("carlength", "170"), ("carwidth", "65"), ("carheight", "55"),
   ("enginesize", "130"), ("peakrpm", "5500")]

/-- The scenario form surrounded by extra, unrelated fields. -/
def extraFieldsForm : Form :=
  ("color", "red") :: scenarioForm ++ [("doors", "4")]

/-- A form whose values are non-finite or negative yet all parseable. -/
def nonFiniteForm : Form :=
  [("carlength", "nan"), ("carwidth", "inf"), ("carheight", "-inf"),
   ("enginesize", "-5"), ("horsepower", "1e3"), ("peakrpm", "5500")]

/-! ## The claims -/

/-- C1: for every form whose six named fields all parse as floats, the
handler calls the predictor exactly once, with the parsed values in the
fixed order carlength, carwidth, carheight, enginesize, horsepower,
peakrpm, and returns the predictor's resulting scalar rendered as text. -/
theorem C1_predict_called_once_fixed_order
    (model : Predictor) (form : Form) (v1 v2 v3 v4 v5 v6 : PyFloat)
    (h1 : getFloat form "carlength" = .ok v1)
    (h2 : getFloat form "carwidth" = .ok v2)
    (h3 : getFloat form "carheight" = .ok v3)
    (h4 : getFloat form "enginesize" = .ok v4)
    (h5 : getFloat form "horsepower" = .ok v5)
    (h6 : getFloat form "peakrpm" = .ok v6) :
    predictCalls model form = [[v1, v2, v3, v4, v5, v6]] ∧
    predict_placement model form =
      .ok (pyFloatToString (model [v1, v2, v3, v4, v5, v6])) := by
  have hp : parseForm form = .ok [v1, v2, v3, v4, v5, v6] := by
    unfold parseForm
    rw [h1, h2, h3, h4, h5, h6]
  constructor
  · unfold predictCalls
    rw [hp]
  · unfold predict_placement
    rw [hp]

/-- C1 witness: the spec's scenario {carlength 170, carwidth 65,
carheight 55, enginesize 130, horsepower 110, peakrpm 5500} yields exactly
one predict call with the vector [170, 65, 55, 130, 110, 5500]. -/
theorem C1_predict_called_once_fixed_order_witness :
    predictCalls constPredictor scenarioForm =
      [[.finite 170 0, .finite 65 0, .finite 55 0,
        .finite 130 0, .finite 110 0, .finite 5500 0]] ∧
    predict_placement constPredictor scenarioForm =
      .ok (pyFloatToString (constPredictor
        [.finite 170 0, .finite 65 0, .finite 55 0,
         .finite 130 0, .finite 110 0, .finite 5500 0])) :=
  C1_predict_called_once_fixed_order constPredictor scenarioForm
    (.finite 170 0) (.finite 65 0) (.finite 55 0)
    (.finite 130 0) (.finite 110 0) (.finite 5500 0)
    (by decide) (by decide) (by decide) (by decide) (by decide) (by decide)

/-- C2: every successful response body is itself parseable as a number. -/
theorem C2_response_parses_as_number
    (model : Predictor) (form : Form) (body : String)
    (h : predict_placement model form = .ok body) :
    (pyFloat body).isSome = true := by
  unfold predict_placement at h
  cases hp : parseForm form with
  | error e => rw [hp] at h; exact absurd h (by simp)
  | ok vec =>
    rw [hp] at h
    have hb : pyFloatToString (model vec) = body := by
      injection h
    rw [← hb]
    exact pyFloat_render_isSome (model vec)

/-- C2 witness: the scenario's response body "13495.0" parses as a number. -/
theorem C2_response_parses_as_number_witness :
    (pyFloat "13495.0").isSome = true :=
  C2_response_parses_as_number constPredictor scenarioForm "13495.0" (by decide)

/-- C3: the handler fails exactly when one of the six fields is missing
from the form or its value does not parse as a float; there is no other
failure path of the running handler. -/
theorem C3_error_iff_field_missing_or_nonnumeric
    (model : Predictor) (form : Form) :
    (∃ e, predict_placement model form = .error e) ↔
    (∃ name ∈ fieldNames, formGet form name = none ∨
      ∃ s, formGet form name = some s ∧ pyFloat s = none) := by
  have key : (∃ e, predict_placement model form = .error e) ↔
      ∃ name ∈ fieldNames, ∃ e, getFloat form name = .error e := by
    unfold predict_placement parseForm fieldNames
    cases h1 : getFloat form "carlength" <;>
    cases h2 : getFloat form "carwidth" <;>
    cases h3 : getFloat form "carheight" <;>
    cases h4 : getFloat form "enginesize" <;>
    cases h5 : getFloat form "horsepower" <;>
    cases h6 : getFloat form "peakrpm" <;>
      simp_all
  rw [key]
  constructor
  · rintro ⟨name, hmem, he⟩
    exact ⟨name, hmem, (getFloat_error_iff form name).mp he⟩
  · rintro ⟨name, hmem, hcase⟩
    exact ⟨name, hmem, (getFloat_error_iff form name).mpr hcase⟩

/-- C4: the handler is deterministic — any two runs of the handler body on
the same predictor and the same form end with the same outcome. -/
theorem C4_handler_deterministic
    (model : Predictor) (form : Form) (o1 o2 : Except ParseError String)
    (h1 : HandlerEval model form o1) (h2 : HandlerEval model form o2) :
    o1 = o2 := by
  cases h1 <;> cases h2 <;> simp_all

/-- C4 witness: on the scenario form the unique outcome is "13495.0". -/
theorem C4_handler_deterministic_witness :
    predict_placement constPredictor scenarioForm =
      .ok "13495.0" :=
  C4_handler_deterministic constPredictor scenarioForm _ _
    (handlerEval_total constPredictor scenarioForm)
    (handlerEval_total constPredictor scenarioForm :
      HandlerEval constPredictor scenarioForm (.ok "13495.0"))

/-- C5: for every successful request the response body is exactly the
predictor's scalar rendered as text — `str(result[0])`, with no further
formatting, rounding, or unit annotation applied. -/
theorem C5_response_is_rendered_scalar
    (model : Predictor) (form : Form) (vec : List PyFloat)
    (h : parseForm form = .ok vec) :
    predict_placement model form = .ok (pyFloatToString (model vec)) := by
  unfold predict_placement
  rw [h]

/-- C5 witness: the scenario response is the rendered scalar verbatim. -/
theorem C5_response_is_rendered_scalar_witness :
    predict_placement constPredictor scenarioForm =
      .ok (pyFloatToString (constPredictor
        [.finite 170 0, .finite 65 0, .finite 55 0,
         .finite 130 0, .finite 110 0, .finite 5500 0])) :=
  C5_response_is_rendered_scalar constPredictor scenarioForm
    [.finite 170 0, .finite 65 0, .finite 55 0,
     .finite 130 0, .finite 110 0, .finite 5500 0] (by decide)

/-- C6: the predictor state is never mutated after load — every request,
on either route, succeeding or failing, and every whole request sequence,
returns the process state unchanged. -/
theorem C6_predictor_never_mutated (st : AppState) :
    (∀ req, (handleRequest st req).2 = st) ∧
    (∀ reqs, (runProcess st reqs).2 = st) := by
  have h1 : ∀ req, (handleRequest st req).2 = st := by
    intro req
    cases req with
    | root => rfl
    | predictRoute form =>
      have hstep : handleRequest st (.predictRoute form) =
          match predict_placement st.model form with
          | .ok body => (.ok body, st)
          | .error e => (.serverError e, st) := rfl
      rw [hstep]
      cases predict_placement st.model form <;> rfl
  refine ⟨h1, ?_⟩
  intro reqs
  induction reqs with
  | nil => rfl
  | cons r rs ih =>
    unfold runProcess
    cases hh : handleRequest st r with
    | mk resp st1 =>
      have : st1 = st := by
        have := h1 r
        rw [hh] at this
        exact this
      subst this
      simpa using ih

/-- C7: in every reachable execution the trace starts with the one model
load, the load happens exactly once, and everything after it is request
serving — no request is handled before the predictor is loaded, and no
second load occurs. -/
theorem C7_load_once_before_serving (reqs : List Request) :
    (processTrace reqs).take 1 = [.load] ∧
    (processTrace reqs).countP isLoad = 1 ∧
    ((processTrace reqs).drop 1).all (fun e => !isLoad e) = true := by
  have hmap : ∀ l : List Request, (l.map ProcEvent.serve).countP isLoad = 0 := by
    intro l
    induction l with
    | nil => rfl
    | cons a t ih => simp [List.countP_cons, isLoad, ih]
  refine ⟨rfl, ?_, ?_⟩
  · show (ProcEvent.load :: reqs.map .serve).countP isLoad = 1
    rw [List.countP_cons, hmap]
    simp [isLoad]
  · show (reqs.map ProcEvent.serve).all (fun e => !isLoad e) = true
    rw [List.all_eq_true]
    intro e he
    obtain ⟨r, -, rfl⟩ := List.mem_map.mp he
    rfl

/-- C8: when parsing fails, the predictor is never invoked for that
request — the call list is empty — and the process state is unchanged;
the response is the propagated error. -/
theorem C8_no_predict_call_on_parse_error
    (st : AppState) (form : Form) (e : ParseError)
    (h : parseForm form = .error e) :
    predictCalls st.model form = [] ∧
    handleRequest st (.predictRoute form) = (.serverError e, st) := by
  constructor
  · unfold predictCalls
    rw [h]
  · have hstep : handleRequest st (.predictRoute form) =
        match predict_placement st.model form with
        | .ok body => (.ok body, st)
        | .error e => (.serverError e, st) := rfl
    rw [hstep]
    unfold predict_placement
    rw [h]

/-- C8 witness: omitting `horsepower` yields no predict call and the
missing-field error, with the state unchanged. -/
theorem C8_no_predict_call_on_parse_error_witness :
    predictCalls (AppState.mk constPredictor).model missingHorsepowerForm = [] ∧
    handleRequest (AppState.mk constPredictor)
        (.predictRoute missingHorsepowerForm) =
      (.serverError (.missing "horsepower"), AppState.mk constPredictor) :=
  C8_no_predict_call_on_parse_error (AppState.mk constPredictor)
    missingHorsepowerForm (.missing "horsepower") (by decide)

/-- C9: extra form fields are ignored — two forms agreeing on the six
named fields produce the same response and the same predict calls. -/
theorem C9_extra_fields_ignored
    (model : Predictor) (f1 f2 : Form)
    (h : ∀ name ∈ fieldNames, formGet f1 name = formGet f2 name) :
    predict_placement model f1 = predict_placement model f2 ∧
    predictCalls model f1 = predictCalls model f2 := by
  have hg : ∀ name ∈ fieldNames, getFloat f1 name = getFloat f2 name := by
    intro name hn
    unfold getFloat
    rw [h name hn]
  have hp : parseForm f1 = parseForm f2 := by
    unfold parseForm
    rw [hg "carlength" (by simp [fieldNames]), hg "carwidth" (by simp [fieldNames]),
      hg "carheight" (by simp [fieldNames]), hg "enginesize" (by simp [fieldNames]),
      hg "horsepower" (by simp [fieldNames]), hg "peakrpm" (by simp [fieldNames])]
  constructor
  · unfold predict_placement
    rw [hp]
  · unfold predictCalls
    rw [hp]

/-- C9 witness: adding unrelated fields `color` and `doors` around the
scenario form changes neither the response nor the predict calls. -/
theorem C9_extra_fields_ignored_witness :
    predict_placement constPredictor scenarioForm =
      predict_placement constPredictor extraFieldsForm ∧
    predictCalls constPredictor scenarioForm =
      predictCalls constPredictor extraFieldsForm :=
  C9_extra_fields_ignored constPredictor scenarioForm extraFieldsForm
    (by
      intro name hn
      simp only [fieldNames, List.mem_cons, List.not_mem_nil, or_false] at hn
      rcases hn with rfl | rfl | rfl | rfl | rfl | rfl <;> rfl)

/-- C10: no validation exists beyond parseability — "nan", "inf", "-inf"
and negative or scientific-notation values all parse and are forwarded to
the predictor unchanged. -/
theorem C10_nonfinite_and_signed_accepted (model : Predictor) :
    pyFloat "nan" = some .nan ∧
    pyFloat "inf" = some .inf ∧
    pyFloat "-inf" = some .neginf ∧
    pyFloat "-5" = some (.finite (-5) 0) ∧
    predictCalls model nonFiniteForm =
      [[.nan, .inf, .neginf, .finite (-5) 0, .finite 1000 0, .finite 5500 0]] ∧
    predict_placement model nonFiniteForm =
      .ok (pyFloatToString (model
        [.nan, .inf, .neginf, .finite (-5) 0, .finite 1000 0, .finite 5500 0])) := by
  have hp : parseForm nonFiniteForm =
      .ok [.nan, .inf, .neginf, .finite (-5) 0, .finite 1000 0, .finite 5500 0] := by
    decide
  refine ⟨by decide, by decide, by decide, by decide, ?_, ?_⟩
  · unfold predictCalls
    rw [hp]
  · unfold predict_placement
    rw [hp]

end CarPrice
